import Mathlib

/-!
Verification of the grin chain-sync engine (src/grin/src/sync.rs) against its
specification.  The Rust source is shallowly embedded: pure helpers become Lean
functions, the mutable-state fragments become explicit state passing, `u64` and
`Difficulty` become `Nat` (the `saturating_sub` of the source is `Nat`
subtraction), and fallible operations (`Result`, `try_read`, `unwrap`) become
`Option`/`Except`.  Loops that follow `previous` pointers through the chain
store take an explicit fuel argument, since the store is modelled as an
arbitrary function and the source's loops terminate only because the real store
is finite; all theorems about them hold for every fuel.  Logging is not
modelled.  The one mutating chain operation the sync core performs,
`chain.reset_head()`, is recorded in the result of `needs_syncing` so that
frame conditions can be stated.
-/

namespace GrinSync

/-! ## Data model (chain store and peer interface as consumed by sync.rs) -/

/-- `chain::Tip`: a snapshot of a chain position. -/
structure Tip where
  height : Nat
  last_block_h : Nat
  prev_block_h : Nat
  total_difficulty : Nat
deriving DecidableEq

/-- A block header; the sync core only uses its height, its `previous` pointer
and its hash (the source's computed `hash()` is modelled as a field). -/
structure BlockHeader where
  height : Nat
  previous : Nat
  hash : Nat
deriving DecidableEq

/-- The observed info of a peer (`peer.info`): advertised height and advertised
total difficulty. -/
structure PeerInfo where
  height : Nat
  total_difficulty : Nat
deriving DecidableEq

/-- The chain store interface consumed by sync.rs.  `difficulty_iter` is the
lazy iterator of `Result<(_, Difficulty)>` entries walking down from the tip;
`get_block_header` returns `none` where the source's call returns `Err`;
`is_on_current_chain` is true where the source's call returns `Ok`;
`get_block_is_ok` is `chain.get_block(x).is_ok()`. -/
structure Chain where
  head : Tip
  get_header_head : Tip
  get_sync_head : Tip
  total_difficulty : Nat
  difficulty_iter : List (Except Unit (Unit × Nat))
  get_block_header : Nat → Option BlockHeader
  is_on_current_chain : BlockHeader → Bool
  get_block_is_ok : Nat → Bool
  is_orphan : Nat → Bool

/-! ## Locator heights (sync.rs, `get_locator_heights`)

The Rust loop
```
let mut current = height;
let mut heights = vec![];
while current > 0 {
    heights.push(current);
    let next = 2u64.pow(heights.len() as u32);
    current = if current > next { current - next } else { 0 }
}
heights.push(0);
```
is embedded as a recursion on `current`; the parameter `k` tracks the number of
entries pushed so far (so `heights.len()` at the point `next` is computed is
`k + 1`).  The accumulator of the source becomes the list that the recursion
conses up, followed by the final `0`. -/

def get_locator_heights_loop (current k : Nat) : List Nat :=
  if hc : current > 0 then
    let next := 2 ^ (k + 1)
    current :: get_locator_heights_loop (if current > next then current - next else 0) (k + 1)
  else
    []
termination_by current
decreasing_by
  have hp : 0 < 2 ^ (k + 1) := Nat.pos_pow_of_pos _ (by omega)
  split <;> omega

def get_locator_heights (height : Nat) : List Nat :=
  get_locator_heights_loop height 0 ++ [0]

/-! ## needs_syncing (sync.rs lines 257-322)

`most_work_peer : Option (Option PeerInfo)` models `peers.most_work_peer()`
followed by `peer.try_read()`: the outer layer is peer availability, the inner
layer is the non-blocking read.  The result records the returned pair
`(bool, u64)` together with whether `chain.reset_head()` was invoked. -/

structure NeedsSyncingResult where
  syncing : Bool
  most_work_height : Nat
  reset_head_called : Bool
deriving DecidableEq

/-- The hysteresis threshold of the non-syncing branch: sum of the first 5
non-errored entries of the chain's difficulty iterator (sync.rs lines
302-306). -/
def sync_threshold (chain : Chain) : Nat :=
  ((chain.difficulty_iter.filterMap fun x => (x.map Prod.snd).toOption).take 5).foldl
    (fun sum val => sum + val) 0

def needs_syncing (currently_syncing : Bool) (most_work_peer : Option (Option PeerInfo))
    (chain : Chain) : NeedsSyncingResult :=
  let local_diff := chain.total_difficulty
  let is_syncing := currently_syncing
  if is_syncing then
    match most_work_peer with
    | some p =>
      match p with
      | some peer =>
        if peer.total_difficulty ≤ local_diff then
          ⟨false, 0, true⟩
        else
          ⟨is_syncing, peer.height, false⟩
      | none => ⟨is_syncing, 0, false⟩
    | none => ⟨false, 0, false⟩
  else
    match most_work_peer with
    | some p =>
      match p with
      | some peer =>
        if peer.total_difficulty > local_diff + sync_threshold chain then
          ⟨true, peer.height, false⟩
        else
          ⟨is_syncing, peer.height, false⟩
      | none => ⟨is_syncing, 0, false⟩
    | none => ⟨is_syncing, 0, false⟩

/-! ## body_sync (sync.rs lines 124-196) -/

/-- The backward walk of body_sync (lines 143-153): from the header at a given
hash, follow `previous` pointers, collecting hashes, until a header on the
current validated chain (or a failed lookup) stops the walk.  `fuel` bounds the
number of iterations. -/
def collect_hashes (chain : Chain) : Nat → Option BlockHeader → List Nat
  | 0, _ => []
  | _ + 1, none => []
  | fuel + 1, some header =>
    if chain.is_on_current_chain header then
      []
    else
      header.hash :: collect_hashes chain fuel (chain.get_block_header header.previous)

/-- `block_count = cmp::min(peers.more_work_peers().len(), 10) * 10`
(sync.rs lines 159-160). -/
def body_sync_block_count (more_work_peers_len : Nat) : Nat :=
  min more_work_peers_len 10 * 10

/-- body_sync, returning the list of hashes for which a block request is
issued.  `peer_for x` models the `more_work_peer()` pick plus `try_read` at the
point hash `x` is processed: `none` means no readable peer, so that hash is
skipped this tick. -/
def body_sync (chain : Chain) (more_work_peers_len : Nat)
    (peer_for : Nat → Option PeerInfo) (fuel : Nat) : List Nat :=
  let body_head := chain.head
  let header_head := chain.get_header_head
  let hashes :=
    if header_head.total_difficulty > body_head.total_difficulty then
      collect_hashes chain fuel (chain.get_block_header header_head.last_block_h)
    else
      []
  let hashes := hashes.reverse
  let block_count := body_sync_block_count more_work_peers_len
  let hashes_to_get :=
    (hashes.filter fun x => !chain.get_block_is_ok x && !chain.is_orphan x).take block_count
  hashes_to_get.filter fun x => (peer_for x).isSome

/-! ## fast_sync (sync.rs lines 213-234) -/

/-- The `for _ in 0..horizon.saturating_sub(20)` loop of fast_sync: each step
replaces the current header by the header at its `previous` pointer; `none`
propagates a failed lookup (the source's `unwrap` panic). -/
def fast_sync_walk (chain : Chain) : Nat → Option BlockHeader → Option BlockHeader
  | 0, cur => cur
  | _ + 1, none => none
  | steps + 1, some h => fast_sync_walk chain steps (chain.get_block_header h.previous)

/-- fast_sync, returning the `(height, hash)` pair passed to
`send_txhashset_request`.  The outer `none` is the source's `unwrap` panic on a
failed header lookup; `some none` means no request was sent (no most-work peer,
or its non-blocking read failed). -/
def fast_sync (chain : Chain) (horizon : Nat) (most_work_peer : Option (Option PeerInfo))
    (header_head : Tip) : Option (Option (Nat × Nat)) :=
  match most_work_peer with
  | some (some _) =>
    match fast_sync_walk chain (horizon - 20)
        (chain.get_block_header header_head.prev_block_h) with
    | some th => some (some (th.height, th.hash))
    | none => none
  | _ => some none

/-- The spec's description of the fast-sync target: the header reached by
walking exactly `n` previous-pointer steps back from `h0`. -/
def walk_previous_spec (chain : Chain) (h0 : BlockHeader) : Nat → Option BlockHeader
  | 0 => some h0
  | n + 1 => (walk_previous_spec chain h0 n).bind fun h => chain.get_block_header h.previous

/-! ## Sync driver highest-height bookkeeping (sync.rs lines 72-75) -/

/-- One tick's update of `highest_height`:
`if most_work_height > 0 { highest_height = most_work_height }`. -/
def update_highest_height (highest_height most_work_height : Nat) : Nat :=
  if most_work_height > 0 then most_work_height else highest_height

/-- The value of `highest_height` after a run of consecutive ticks whose
`needs_syncing` calls reported the given heights. -/
def run_highest_height (init : Nat) (observed : List Nat) : Nat :=
  observed.foldl update_highest_height init

/-! ## Concrete inputs used by witnesses and counterexamples -/

/-- A chain whose difficulty iterator holds five ok entries summing to 15
(plus an errored entry and a sixth ok entry that must be ignored) and local
total difficulty 10. -/
def c2_chain : Chain :=
  ⟨⟨0, 0, 0, 0⟩, ⟨0, 0, 0, 0⟩, ⟨0, 0, 0, 0⟩, 10,
    [Except.ok ((), 1), Except.error (), Except.ok ((), 2), Except.ok ((), 3),
      Except.ok ((), 4), Except.ok ((), 5), Except.ok ((), 100)],
    fun _ => none, fun _ => false, fun _ => false, fun _ => false⟩

/-- A linear chain 3 → 2 → 1 whose headers at height ≤ 1 are on the current
chain, where block 2 is already stored, with `header_head` at hash 3. -/
def c4_chain : Chain :=
  ⟨⟨1, 1, 0, 1⟩, ⟨3, 3, 2, 5⟩, ⟨3, 3, 2, 5⟩, 1, [],
    fun n => if n = 0 then none else if n ≤ 3 then some ⟨n, n - 1, n⟩ else none,
    fun hd => hd.height ≤ 1, fun n => n == 2, fun _ => false⟩

/-- A peer pick that always yields a readable more-work peer. -/
def c4_pf : Nat → Option PeerInfo := fun _ => some ⟨5, 5⟩

/-- A linear chain of 90 headers (90 → 89 → ... → 1), none on the current
chain, none stored, none orphaned, with `header_head` at hash 90. -/
def c5_chain : Chain :=
  ⟨⟨0, 0, 0, 0⟩, ⟨90, 90, 89, 1⟩, ⟨90, 90, 89, 1⟩, 0, [],
    fun n => if n = 0 then none else if n ≤ 90 then some ⟨n, n - 1, n⟩ else none,
    fun _ => false, fun _ => false, fun _ => false⟩

/-! ## Locator-height lemmas -/

/-- Unfolding equation of the loop for a positive `current`. -/
theorem get_locator_heights_loop_pos (current k : Nat) (hc : current > 0) :
    get_locator_heights_loop current k =
      current :: get_locator_heights_loop
        (if current > 2 ^ (k + 1) then current - 2 ^ (k + 1) else 0) (k + 1) := by
  rw [get_locator_heights_loop]
  simp [hc]

/-- Unfolding equation of the loop for `current = 0`. -/
theorem get_locator_heights_loop_zero (k : Nat) :
    get_locator_heights_loop 0 k = [] := by
  rw [get_locator_heights_loop]
  simp

/-- The loop's next value of `current` is strictly smaller. -/
theorem loop_next_lt (c k : Nat) (hc : c > 0) :
    (if c > 2 ^ (k + 1) then c - 2 ^ (k + 1) else 0) < c := by
  have hp : 0 < 2 ^ (k + 1) := Nat.pos_pow_of_pos _ (by omega)
  split <;> omega

/-- The loop output, with the trailing 0, is strictly decreasing. -/
theorem loop_chain (c k : Nat) :
    List.Chain' (fun a b => b < a) (get_locator_heights_loop c k ++ [0]) := by
  induction c using Nat.strong_induction_on generalizing k with
  | _ c ih =>
    by_cases hc : c > 0
    · rw [get_locator_heights_loop_pos c k hc, List.cons_append, List.chain'_cons']
      refine ⟨?_, ih _ (loop_next_lt c k hc) (k + 1)⟩
      intro y hy
      by_cases h2 : (if c > 2 ^ (k + 1) then c - 2 ^ (k + 1) else 0) > 0
      · rw [get_locator_heights_loop_pos _ (k + 1) h2, List.cons_append] at hy
        simp only [List.head?_cons, Option.mem_def, Option.some.injEq] at hy
        have := loop_next_lt c k hc
        omega
      · have h0 : (if c > 2 ^ (k + 1) then c - 2 ^ (k + 1) else 0) = 0 := by omega
        rw [h0, get_locator_heights_loop_zero, List.nil_append] at hy
        simp only [List.head?_cons, Option.mem_def, Option.some.injEq] at hy
        omega
    · have h0 : c = 0 := by omega
      subst h0
      rw [get_locator_heights_loop_zero, List.nil_append]
      simp

/-- Adjacent entries of the loop output differ by the power of two determined
by their position, except where the subtraction saturated to 0. -/
theorem loop_steps (c k i : Nat)
    (hlen : i + 1 < (get_locator_heights_loop c k ++ [0]).length) :
    ((get_locator_heights_loop c k ++ [0]).getD (i + 1) 0 ≠ 0 →
      (get_locator_heights_loop c k ++ [0]).getD i 0 -
        (get_locator_heights_loop c k ++ [0]).getD (i + 1) 0 = 2 ^ (k + i + 1)) ∧
    ((get_locator_heights_loop c k ++ [0]).getD (i + 1) 0 = 0 →
      (get_locator_heights_loop c k ++ [0]).getD i 0 ≤ 2 ^ (k + i + 1)) := by
  induction c using Nat.strong_induction_on generalizing k i with
  | _ c ih =>
    by_cases hc : c > 0
    · rw [get_locator_heights_loop_pos c k hc, List.cons_append] at hlen ⊢
      match i with
      | 0 =>
        simp only [Nat.add_zero]
        rw [List.getD_cons_succ, List.getD_cons_zero]
        by_cases h2 : (if c > 2 ^ (k + 1) then c - 2 ^ (k + 1) else 0) > 0
        · have hgt : c > 2 ^ (k + 1) := by
            by_contra hng
            simp only [if_neg hng] at h2
            omega
          rw [if_pos hgt] at h2 ⊢
          rw [get_locator_heights_loop_pos _ (k + 1) h2, List.cons_append,
            List.getD_cons_zero]
          constructor
          · intro _
            exact Nat.sub_sub_self (le_of_lt hgt)
          · intro h0
            omega
        · have h0 : (if c > 2 ^ (k + 1) then c - 2 ^ (k + 1) else 0) = 0 := by omega
          have hle : c ≤ 2 ^ (k + 1) := by
            by_contra hng
            rw [if_pos (by omega)] at h0
            omega
          rw [h0, get_locator_heights_loop_zero, List.nil_append, List.getD_cons_zero]
          constructor
          · intro hne
            exact absurd rfl hne
          · intro _
            simpa using hle
      | j + 1 =>
        rw [List.getD_cons_succ, List.getD_cons_succ]
        have hlen' : j + 1 <
            (get_locator_heights_loop (if c > 2 ^ (k + 1) then c - 2 ^ (k + 1) else 0)
              (k + 1) ++ [0]).length := by
          simpa using hlen
        have := ih _ (loop_next_lt c k hc) (k + 1) j hlen'
        have harith : k + 1 + j + 1 = k + (j + 1) + 1 := by omega
        rw [harith] at this
        exact this
    · have h0 : c = 0 := by omega
      subst h0
      rw [get_locator_heights_loop_zero, List.nil_append] at hlen
      simp at hlen

/-- The first locator height is the starting height, for every height. -/
theorem glh_head (h : Nat) : (get_locator_heights h).head? = some h := by
  by_cases hc : h > 0
  · rw [get_locator_heights, get_locator_heights_loop_pos h 0 hc, List.cons_append,
      List.head?_cons]
  · have h0 : h = 0 := by omega
    subst h0
    rw [get_locator_heights, get_locator_heights_loop_zero, List.nil_append]
    rfl

/-- The last locator height is always 0. -/
theorem glh_last (h : Nat) : (get_locator_heights h).getLast? = some 0 := by
  rw [get_locator_heights, List.getLast?_concat]

theorem glh_0 : get_locator_heights 0 = [0] := by
  norm_num [get_locator_heights, get_locator_heights_loop_zero]

theorem glh_1 : get_locator_heights 1 = [1, 0] := by
  norm_num [get_locator_heights, get_locator_heights_loop_pos, get_locator_heights_loop_zero]

theorem glh_2 : get_locator_heights 2 = [2, 0] := by
  norm_num [get_locator_heights, get_locator_heights_loop_pos, get_locator_heights_loop_zero]

theorem glh_3 : get_locator_heights 3 = [3, 1, 0] := by
  norm_num [get_locator_heights, get_locator_heights_loop_pos, get_locator_heights_loop_zero]

theorem glh_10 : get_locator_heights 10 = [10, 8, 4, 0] := by
  norm_num [get_locator_heights, get_locator_heights_loop_pos, get_locator_heights_loop_zero]

theorem glh_100 : get_locator_heights 100 = [100, 98, 94, 86, 70, 38, 0] := by
  norm_num [get_locator_heights, get_locator_heights_loop_pos, get_locator_heights_loop_zero]

set_option maxRecDepth 4000 in
theorem glh_1000 : get_locator_heights 1000 =
    [1000, 998, 994, 986, 970, 938, 874, 746, 490, 0] := by
  norm_num [get_locator_heights, get_locator_heights_loop_pos, get_locator_heights_loop_zero]

set_option maxRecDepth 4000 in
theorem glh_10000 : get_locator_heights 10000 =
    [10000, 9998, 9994, 9986, 9970, 9938, 9874, 9746, 9490, 8978, 7954, 5906, 1810, 0] := by
  norm_num [get_locator_heights, get_locator_heights_loop_pos, get_locator_heights_loop_zero]

/-! ## Claim C1 -/

/-- C1: `get_locator_heights` returns exactly the listed vector for each of
h = 0, 1, 2, 3, 10, 100, 1000 and 10000 (the last being the 14-entry list). -/
theorem get_locator_heights_test_vectors :
    get_locator_heights 0 = [0] ∧
    get_locator_heights 1 = [1, 0] ∧
    get_locator_heights 2 = [2, 0] ∧
    get_locator_heights 3 = [3, 1, 0] ∧
    get_locator_heights 10 = [10, 8, 4, 0] ∧
    get_locator_heights 100 = [100, 98, 94, 86, 70, 38, 0] ∧
    get_locator_heights 1000 = [1000, 998, 994, 986, 970, 938, 874, 746, 490, 0] ∧
    get_locator_heights 10000 =
      [10000, 9998, 9994, 9986, 9970, 9938, 9874, 9746, 9490, 8978, 7954, 5906, 1810, 0] :=
  ⟨glh_0, glh_1, glh_2, glh_3, glh_10, glh_100, glh_1000, glh_10000⟩

/-! ## Claim C7 -/

/-- C7 counterexample: at h = 0 the first element of `get_locator_heights 0`
equals h (both are 0) while `h > 0` is false, so "its first element equals h if
and only if h > 0" fails in the right-to-left-excluding direction. -/
theorem get_locator_heights_head_iff_cex :
    (get_locator_heights 0).head? = some 0 ∧ ¬((0 : Nat) > 0) :=
  ⟨glh_head 0, by omega⟩

/-- C7 (amended): for every h, `get_locator_heights h` is strictly decreasing,
its final element is 0, its first element equals h (for every h, not only for
h > 0), and for h = 0 the list is exactly `[0]`. -/
theorem get_locator_heights_shape (h : Nat) :
    List.Chain' (fun a b => b < a) (get_locator_heights h) ∧
    (get_locator_heights h).getLast? = some 0 ∧
    (get_locator_heights h).head? = some h ∧
    get_locator_heights 0 = [0] :=
  ⟨loop_chain h 0, glh_last h, glh_head h, glh_0⟩

/-! ## Claim C8 -/

/-- C8 counterexample: at h = 10 and k = 0 the claim demands a step of
`2 ^ 0 = 1`; the list is `[10, 8, 4, 0]`, the step is 2, and no saturation
occurs there (the element at position 1 is nonzero). -/
theorem get_locator_heights_step_cex :
    (get_locator_heights 10).getD 1 0 ≠ 0 ∧
    (get_locator_heights 10).getD 0 0 - (get_locator_heights 10).getD 1 0 = 2 ∧
    (2 : Nat) ≠ 2 ^ 0 := by
  rw [glh_10]
  decide

/-- C8 (amended): for every h and every adjacent pair at positions k and k+1 of
`get_locator_heights h`, the difference is exactly `2 ^ (k + 1)`; where the
subtraction saturated to 0 (the successor entry is 0), the entry at position k
is at most `2 ^ (k + 1)`. -/
theorem get_locator_heights_steps (h k : Nat)
    (hk : k + 1 < (get_locator_heights h).length) :
    ((get_locator_heights h).getD (k + 1) 0 ≠ 0 →
      (get_locator_heights h).getD k 0 - (get_locator_heights h).getD (k + 1) 0 = 2 ^ (k + 1)) ∧
    ((get_locator_heights h).getD (k + 1) 0 = 0 →
      (get_locator_heights h).getD k 0 ≤ 2 ^ (k + 1)) := by
  have := loop_steps h 0 k (by simpa [get_locator_heights] using hk)
  simpa [get_locator_heights] using this

/-- Witness for C8 (amended), at h = 10 and k = 1: the list is `[10, 8, 4, 0]`
and the step from position 1 to position 2 is `8 - 4 = 4 = 2 ^ 2`. -/
theorem get_locator_heights_steps_witness :
    1 + 1 < (get_locator_heights 10).length ∧
    (((get_locator_heights 10).getD 2 0 ≠ 0 →
      (get_locator_heights 10).getD 1 0 - (get_locator_heights 10).getD 2 0 = 2 ^ 2) ∧
     ((get_locator_heights 10).getD 2 0 = 0 →
      (get_locator_heights 10).getD 1 0 ≤ 2 ^ 2)) :=
  ⟨by rw [glh_10]; decide, get_locator_heights_steps 10 1 (by rw [glh_10]; decide)⟩

/-! ## needs_syncing branch lemmas -/

theorem ns_true_peer_le (pi : PeerInfo) (chain : Chain)
    (hle : pi.total_difficulty ≤ chain.total_difficulty) :
    needs_syncing true (some (some pi)) chain = ⟨false, 0, true⟩ := by
  simp [needs_syncing, hle]

theorem ns_true_peer_gt (pi : PeerInfo) (chain : Chain)
    (hgt : pi.total_difficulty > chain.total_difficulty) :
    needs_syncing true (some (some pi)) chain = ⟨true, pi.height, false⟩ := by
  have hng : ¬(pi.total_difficulty ≤ chain.total_difficulty) := by omega
  simp [needs_syncing, hng]

theorem ns_true_unreadable (chain : Chain) :
    needs_syncing true (some none) chain = ⟨true, 0, false⟩ := by
  simp [needs_syncing]

theorem ns_true_nopeer (chain : Chain) :
    needs_syncing true none chain = ⟨false, 0, false⟩ := by
  simp [needs_syncing]

theorem ns_false_peer_gt (pi : PeerInfo) (chain : Chain)
    (hgt : pi.total_difficulty > chain.total_difficulty + sync_threshold chain) :
    needs_syncing false (some (some pi)) chain = ⟨true, pi.height, false⟩ := by
  simp [needs_syncing, hgt]

theorem ns_false_peer_ngt (pi : PeerInfo) (chain : Chain)
    (hng : ¬(pi.total_difficulty > chain.total_difficulty + sync_threshold chain)) :
    needs_syncing false (some (some pi)) chain = ⟨false, pi.height, false⟩ := by
  simp [needs_syncing, hng]

theorem ns_false_unreadable (chain : Chain) :
    needs_syncing false (some none) chain = ⟨false, 0, false⟩ := by
  simp [needs_syncing]

theorem ns_false_nopeer (chain : Chain) :
    needs_syncing false none chain = ⟨false, 0, false⟩ := by
  simp [needs_syncing]

/-! ## Claim C2 -/

/-- C2: with `currently_syncing` false and a readable most-work peer,
`needs_syncing` returns `(true, peer.height)` if and only if the peer's
advertised total difficulty strictly exceeds the local difficulty plus the
threshold (the sum of the first 5 non-errored entries of the chain's
difficulty iterator); at exact equality it returns `(false, peer.height)`. -/
theorem needs_syncing_threshold_hysteresis (pi : PeerInfo) (chain : Chain) :
    (((needs_syncing false (some (some pi)) chain).syncing = true ∧
      (needs_syncing false (some (some pi)) chain).most_work_height = pi.height) ↔
      pi.total_difficulty > chain.total_difficulty + sync_threshold chain) ∧
    (pi.total_difficulty = chain.total_difficulty + sync_threshold chain →
      (needs_syncing false (some (some pi)) chain).syncing = false ∧
      (needs_syncing false (some (some pi)) chain).most_work_height = pi.height) := by
  constructor
  · constructor
    · intro hres
      by_contra hng
      rw [ns_false_peer_ngt pi chain hng] at hres
      simp at hres
    · intro hgt
      rw [ns_false_peer_gt pi chain hgt]
      exact ⟨rfl, rfl⟩
  · intro heq
    have hng : ¬(pi.total_difficulty > chain.total_difficulty + sync_threshold chain) := by
      omega
    rw [ns_false_peer_ngt pi chain hng]
    exact ⟨rfl, rfl⟩

/-- Witness for C2 at the exact-equality boundary: local difficulty 10,
threshold 15 (1+2+3+4+5 from the iterator, the errored entry and the sixth ok
entry ignored), peer difficulty 25 = 10 + 15, peer height 42. -/
theorem needs_syncing_threshold_hysteresis_witness :
    (PeerInfo.mk 42 25).total_difficulty = c2_chain.total_difficulty + sync_threshold c2_chain ∧
    (needs_syncing false (some (some ⟨42, 25⟩)) c2_chain).syncing = false ∧
    (needs_syncing false (some (some ⟨42, 25⟩)) c2_chain).most_work_height = 42 := by
  have h := (needs_syncing_threshold_hysteresis ⟨42, 25⟩ c2_chain).2 (by decide)
  exact ⟨by decide, h.1, h.2⟩

/-! ## Claim C3 -/

/-- C3: with `currently_syncing` true and a readable most-work peer, if the
peer's advertised difficulty is at most the local difficulty then
`chain.reset_head()` is called and `(false, 0)` is returned; if it is strictly
greater, `(true, peer.height)` is returned and `reset_head` is not called. -/
theorem needs_syncing_caught_up_reset (pi : PeerInfo) (chain : Chain) :
    (pi.total_difficulty ≤ chain.total_difficulty →
      needs_syncing true (some (some pi)) chain = ⟨false, 0, true⟩) ∧
    (pi.total_difficulty > chain.total_difficulty →
      needs_syncing true (some (some pi)) chain = ⟨true, pi.height, false⟩) :=
  ⟨ns_true_peer_le pi chain, ns_true_peer_gt pi chain⟩

/-- Witness for C3: with local difficulty 10, a peer at difficulty 10 triggers
`reset_head` and `(false, 0)`; a peer at difficulty 11 yields
`(true, 42)` without `reset_head`. -/
theorem needs_syncing_caught_up_reset_witness :
    (PeerInfo.mk 42 10).total_difficulty ≤ c2_chain.total_difficulty ∧
    needs_syncing true (some (some ⟨42, 10⟩)) c2_chain = ⟨false, 0, true⟩ ∧
    (PeerInfo.mk 42 11).total_difficulty > c2_chain.total_difficulty ∧
    needs_syncing true (some (some ⟨42, 11⟩)) c2_chain = ⟨true, 42, false⟩ :=
  ⟨by decide, (needs_syncing_caught_up_reset ⟨42, 10⟩ c2_chain).1 (by decide),
   by decide, (needs_syncing_caught_up_reset ⟨42, 11⟩ c2_chain).2 (by decide)⟩

/-! ## Claim C10 -/

/-- C10: `needs_syncing` invokes `chain.reset_head()` exactly when
`currently_syncing` is true and a readable most-work peer advertises total
difficulty at most the local total difficulty; in every other outcome it
performs no mutating chain operation (`reset_head` being the only mutating
call it makes). -/
theorem reset_head_frame (cs : Bool) (peer : Option (Option PeerInfo)) (chain : Chain) :
    (needs_syncing cs peer chain).reset_head_called = true ↔
      cs = true ∧ ∃ pi, peer = some (some pi) ∧
        pi.total_difficulty ≤ chain.total_difficulty := by
  cases cs with
  | false =>
    match peer with
    | none => rw [ns_false_nopeer]; simp
    | some none => rw [ns_false_unreadable]; simp
    | some (some pi) =>
      by_cases hgt : pi.total_difficulty > chain.total_difficulty + sync_threshold chain
      · rw [ns_false_peer_gt pi chain hgt]; simp
      · rw [ns_false_peer_ngt pi chain hgt]; simp
  | true =>
    match peer with
    | none => rw [ns_true_nopeer]; simp
    | some none => rw [ns_true_unreadable]; simp
    | some (some pi) =>
      by_cases hle : pi.total_difficulty ≤ chain.total_difficulty
      · rw [ns_true_peer_le pi chain hle]
        constructor
        · intro _
          exact ⟨rfl, ⟨pi, rfl, hle⟩⟩
        · intro _
          rfl
      · rw [ns_true_peer_gt pi chain (by omega)]
        constructor
        · intro hfalse
          simp at hfalse
        · rintro ⟨-, pi', hpe, hle'⟩
          simp only [Option.some.injEq] at hpe
          subst hpe
          exact absurd hle' hle

/-! ## Claim C9 -/

/-- Once nonzero, the stored highest height stays nonzero across a run. -/
theorem run_highest_height_ne_zero (ms : List Nat) (h : Nat) (hh : h ≠ 0) :
    run_highest_height h ms ≠ 0 := by
  induction ms generalizing h with
  | nil => simpa [run_highest_height]
  | cons a t ih =>
    rw [run_highest_height, List.foldl_cons]
    apply ih
    unfold update_highest_height
    split <;> omega

/-- C9: the stored `highest_height` is updated with the height reported by
`needs_syncing` only when that height is nonzero: a zero report leaves the
stored value unchanged, a nonzero report replaces it, and a value once nonzero
never becomes zero over any run of ticks. -/
theorem highest_height_sticky (h m : Nat) (ms : List Nat) :
    update_highest_height h 0 = h ∧
    (m ≠ 0 → update_highest_height h m = m) ∧
    (h ≠ 0 → run_highest_height h ms ≠ 0) := by
  refine ⟨rfl, fun hm => ?_, fun hh => run_highest_height_ne_zero ms h hh⟩
  unfold update_highest_height
  split <;> omega

/-- Witness for C9: starting from stored height 5, the run of reports
`[0, 7, 0]` keeps the stored value nonzero, a zero report leaves 5 unchanged,
and the nonzero report 7 replaces 5. -/
theorem highest_height_sticky_witness :
    (7 : Nat) ≠ 0 ∧ (5 : Nat) ≠ 0 ∧
    update_highest_height 5 0 = 5 ∧ update_highest_height 5 7 = 7 ∧
    run_highest_height 5 [0, 7, 0] ≠ 0 := by
  have h := highest_height_sticky 5 7 [0, 7, 0]
  exact ⟨by decide, by decide, h.1, h.2.1 (by decide), h.2.2 (by decide)⟩

/-! ## Claim C4 -/

/-- C4: when the header chain has more work than the validated chain, the
hashes body_sync requests are exactly the first `block_count` walked hashes
(in ascending height order) that are neither already stored nor orphaned —
exactly when every per-hash peer read succeeds — and in any case no request is
issued for a hash outside that window. -/
theorem body_sync_request_window (chain : Chain) (n : Nat)
    (peer_for : Nat → Option PeerInfo) (fuel : Nat)
    (hgt : chain.get_header_head.total_difficulty > chain.head.total_difficulty) :
    (∀ x ∈ body_sync chain n peer_for fuel,
      x ∈ (((collect_hashes chain fuel
          (chain.get_block_header chain.get_header_head.last_block_h)).reverse.filter
          fun y => !chain.get_block_is_ok y && !chain.is_orphan y).take
          (body_sync_block_count n))) ∧
    ((∀ x, (peer_for x).isSome) →
      body_sync chain n peer_for fuel =
        ((collect_hashes chain fuel
          (chain.get_block_header chain.get_header_head.last_block_h)).reverse.filter
          fun y => !chain.get_block_is_ok y && !chain.is_orphan y).take
          (body_sync_block_count n)) := by
  simp only [body_sync]
  rw [if_pos hgt]
  constructor
  · intro x hx
    exact List.mem_of_mem_filter hx
  · intro hall
    apply List.filter_eq_self.mpr
    intro x _
    simpa using hall x

/-- Witness for C4 on the concrete chain 3 → 2 → 1 (1 on the current chain,
block 2 already stored): the walked hashes in ascending order are [2, 3],
hash 2 is filtered out as stored, and with an always-readable peer the request
list is exactly [3]. -/
theorem body_sync_request_window_witness :
    c4_chain.get_header_head.total_difficulty > c4_chain.head.total_difficulty ∧
    (∀ x, (c4_pf x).isSome) ∧
    body_sync c4_chain 1 c4_pf 10 = [3] := by
  have h := (body_sync_request_window c4_chain 1 c4_pf 10 (by decide)).2 (fun x => rfl)
  refine ⟨by decide, fun x => rfl, ?_⟩
  rw [h]
  decide

/-! ## Claim C5 -/

/-- C5 counterexample: with 10 more-work peers, `block_count` is 100, and on a
chain of 90 missing blocks a single body_sync invocation requests 90 blocks —
both beyond the claimed bound of 80. -/
theorem body_sync_block_count_cex :
    body_sync_block_count 10 = 100 ∧
    (body_sync c5_chain 10 c4_pf 100).length = 90 ∧
    ¬((body_sync c5_chain 10 c4_pf 100).length ≤ 80) := by
  refine ⟨rfl, ?_, ?_⟩ <;> decide

/-- C5 (amended): `block_count = min(|more-work peers|, 10) × 10` never exceeds
100 (it reaches 100, exceeding 80, once ten peers advertise more work), and the
number of blocks requested in one body_sync invocation never exceeds
`block_count`. -/
theorem body_sync_block_count_le (chain : Chain) (n : Nat)
    (peer_for : Nat → Option PeerInfo) (fuel : Nat) :
    body_sync_block_count n ≤ 100 ∧
    (body_sync chain n peer_for fuel).length ≤ body_sync_block_count n := by
  constructor
  · have h := Nat.min_le_right n 10
    unfold body_sync_block_count
    omega
  · unfold body_sync
    exact le_trans (List.length_filter_le _ _) (List.length_take_le _ _)

/-! ## Claim C6 -/

theorem fast_sync_walk_none (chain : Chain) (m : Nat) :
    fast_sync_walk chain m none = none := by
  cases m <;> rfl

/-- Peeling one step off the end of the fast-sync walk. -/
theorem fast_sync_walk_succ (chain : Chain) (n : Nat) (cur : Option BlockHeader) :
    fast_sync_walk chain (n + 1) cur =
      (fast_sync_walk chain n cur).bind fun h => chain.get_block_header h.previous := by
  induction n generalizing cur with
  | zero => cases cur <;> rfl
  | succ n ih =>
    cases cur with
    | none => rw [fast_sync_walk_none, fast_sync_walk_none]; rfl
    | some h =>
      show fast_sync_walk chain (n + 1) (chain.get_block_header h.previous) = _
      rw [ih]
      rfl

/-- The source's walk agrees with the spec's end-recursive description. -/
theorem fast_sync_walk_eq_spec (chain : Chain) (h0 : BlockHeader) (n : Nat) :
    fast_sync_walk chain n (some h0) = walk_previous_spec chain h0 n := by
  induction n with
  | zero => rfl
  | succ n ih => rw [fast_sync_walk_succ, ih]; rfl

/-- C6: when fast_sync runs with a readable most-work peer, the
`(height, hash)` pair it sends in the txhashset request is that of the header
reached by walking exactly `horizon - 20` previous-pointer steps (saturating
at 0) back from the header whose hash is `header_head.prev_block_h`; a failed
lookup anywhere along that walk is the source's panic. -/
theorem fast_sync_txhashset_target (chain : Chain) (horizon : Nat) (pi : PeerInfo)
    (header_head : Tip) :
    fast_sync chain horizon (some (some pi)) header_head =
      ((chain.get_block_header header_head.prev_block_h).bind fun h0 =>
        walk_previous_spec chain h0 (horizon - 20)).map fun th =>
          some (th.height, th.hash) := by
  unfold fast_sync
  cases hgb : chain.get_block_header header_head.prev_block_h with
  | none => rw [fast_sync_walk_none]; rfl
  | some h0 =>
    rw [fast_sync_walk_eq_spec, Option.some_bind]
    cases walk_previous_spec chain h0 (horizon - 20) <;> rfl

end GrinSync
